import Mathlib

/-!
# Verification of the `psn` streaming collector and socket fan-out query

A shallow embedding of `top_stream.go`: the streaming `top` collector
(`enqueue` producer loop, `dequeue` consumer loop, readiness gate, shutdown
error reclassification) and the socket fan-out query (`GetSS`, `getSSEntry`).

Machine integers are modelled as `Int`; Go `error` values are modelled as
`Option String` carrying the error message (`none` = nil error).  The two
collector goroutines synchronise through one mutex, so each loop iteration is
atomic; the claims about the collector scope the runs as "enqueue then
dequeue", which we model by running the producer over a finite list of read
results and then letting the consumer drain the queue.
-/

namespace Psn

/-- Accumulator-style splitter behind `goFields`: `acc` holds the reversed
characters of the field being built. -/
def fieldsAux : List Char → List Char → List (List Char)
  | acc, [] => if acc.isEmpty then [] else [acc.reverse]
  | acc, c :: rest =>
    if Char.isWhitespace c then
      if acc.isEmpty then fieldsAux [] rest else acc.reverse :: fieldsAux [] rest
    else fieldsAux (c :: acc) rest

/-- Whitespace-splitting of a line, as Go's `strings.Fields`: split on runs of
whitespace and drop empty fields. -/
def goFields (s : String) : List String :=
  (fieldsAux [] s.data).map List.asString

/-- Trim leading and trailing whitespace, as Go's `bytes.TrimSpace`. -/
def goTrim (s : String) : String :=
  ((s.data.dropWhile Char.isWhitespace).reverse.dropWhile
      Char.isWhitespace).reverse.asString

/-- Parse a decimal natural number, as Go's `strconv.ParseInt` restricted to
the non-negative pids the rows carry. -/
def charsToNatAux : List Char → Nat → Option Nat
  | [], acc => some acc
  | c :: rest, acc =>
    if c.isDigit then charsToNatAux rest (acc * 10 + (c.toNat - 48)) else none

/-- Parse a whole string as a decimal natural number; `none` on the empty
string or any non-digit character. -/
def goParseNat (s : String) : Option Nat :=
  match s.data with
  | [] => none
  | l => charsToNatAux l 0

/-- Does the first character list start the second one? -/
def charsStartWith : List Char → List Char → Bool
  | [], _ => true
  | _ :: _, [] => false
  | a :: as, b :: bs => a == b && charsStartWith as bs

/-- Does the first character list occur contiguously inside the second one? -/
def charsContain (sub : List Char) : List Char → Bool
  | [] => sub.isEmpty
  | b :: bs => charsStartWith sub (b :: bs) || charsContain sub bs

/-- Substring test, as Go's `strings.Contains s substr`. -/
def goContains (s substr : String) : Bool :=
  charsContain substr.data s.data

/-- Modelled from the spec: `TopCommandRow` (the repository's row type lives
outside the provided sources).  Per the spec's IntervalRow: a process id
(integer, required) plus the remaining metric fields of the line. -/
structure TopCommandRow where
  pid : Int
  metrics : List String
deriving DecidableEq, Repr

/-- Modelled from the spec: the Row Parser contract supplied to the collector —
the expected header row (`TopRowHeaders`, fixing the arity), the banner/header
recogniser (`topRowToSkip`), and the row parser (`parseTopRow`).  These live in
repository files outside the provided sources, so the collector is
parameterised over them. -/
structure RowParser where
  headers : List String
  skip : String → Bool
  parse : List String → Except String TopCommandRow

/-- One result of `reader.ReadLine()` on the pseudo-terminal: the returned
bytes (as a string) and the returned error (`none` = nil). -/
structure ReadResult where
  data : String
  err : Option String
deriving DecidableEq, Repr

/-- Go map assignment `m[k] = v` on the association-list model of
`map[int64]TopCommandRow`: the new binding shadows (replaces) any old binding
of the same key. -/
def mapInsert (m : List (Int × TopCommandRow)) (k : Int) (v : TopCommandRow) :
    List (Int × TopCommandRow) :=
  (k, v) :: m.filter (fun p => p.1 ≠ k)

/-- Go map lookup `m[k]` on the association-list model. -/
def mapLookup (k : Int) : List (Int × TopCommandRow) → Option TopCommandRow
  | [] => none
  | kv :: rest => if kv.1 = k then some kv.2 else mapLookup k rest

/-- The keys of the map model are pairwise distinct (an invariant of
`mapInsert`, and of every Go map). -/
def nodupKeys (m : List (Int × TopCommandRow)) : Prop :=
  (m.map Prod.fst).Nodup

instance (m : List (Int × TopCommandRow)) : Decidable (nodupKeys m) := by
  unfold nodupKeys; infer_instance

/-- The mutable state of a `TopStream` shared by the producer and consumer:
the pending queue, the snapshot map `pid2TopCommandRow`, the terminal error
`err`, the readiness flag `ready`, plus instrumentation of the synchronisation
events: how many times `close(readyc)` ran, how many times `rcond.Signal()`
ran, and the messages sent on the error channel `errc`. -/
structure TopStreamState where
  queue : List TopCommandRow
  pid2TopCommandRow : List (Int × TopCommandRow)
  err : Option String
  ready : Bool
  readycCloseCount : Nat
  signals : Nat
  errc : List String
deriving DecidableEq, Repr

/-- The state built by `StartStream` before launching the two goroutines. -/
def initTopStreamState : TopStreamState :=
  { queue := []
    pid2TopCommandRow := []
    err := none
    ready := false
    readycCloseCount := 0
    signals := 0
    errc := [] }

/-- One iteration of the producer loop body of `(str *TopStream).enqueue`,
given the `ReadLine` result of this iteration.  Mirrors the source: trim, the
`topRowToSkip` check (before `str.err = lerr`!), then `str.err = lerr`, the
blank-line check, the arity check against `TopRowHeaders`, `parseTopRow`, and
on success the append plus the became-nonempty `rcond.Signal()`. -/
def enqueueStep (ps : RowParser) (s : TopStreamState) (i : ReadResult) :
    TopStreamState :=
  if ps.skip (goTrim i.data) then s
  else if (goTrim i.data) = "" then { s with err := i.err }
  else if (goFields (goTrim i.data)).length ≠ ps.headers.length then { s with err := i.err }
  else
    match ps.parse (goFields (goTrim i.data)) with
    | Except.error rerr => { s with err := some rerr }
    | Except.ok r =>
      { s with err := i.err
               queue := s.queue ++ [r]
               signals :=
                 if (s.queue ++ [r]).length = 1 then s.signals + 1 else s.signals }

/-- The producer loop of `(str *TopStream).enqueue` run over a finite list of
`ReadLine` results.  The loop head re-checks `str.noError()`; when the check
fails the loop exits and runs the final `rcond.Signal()`.  When the inputs are
exhausted without an error the producer is still inside the loop, blocked on
the next read, so no exit signal has happened yet. -/
def enqueueRun (ps : RowParser) : TopStreamState → List ReadResult → TopStreamState
  | s, [] => if s.err = none then s else { s with signals := s.signals + 1 }
  | s, i :: rest =>
    if s.err = none then enqueueRun ps (enqueueStep ps s i) rest
    else { s with signals := s.signals + 1 }

/-- The body of the consumer loop of `(str *TopStream).dequeue` for one popped
row: store it into the snapshot keyed by PID, and if the one-shot readiness
flag is still down, raise it and run `close(str.readyc)`. -/
def consumeRow (s : TopStreamState) (r : TopCommandRow) : TopStreamState :=
  if s.ready then
    { s with pid2TopCommandRow := mapInsert s.pid2TopCommandRow r.pid r }
  else
    { s with pid2TopCommandRow := mapInsert s.pid2TopCommandRow r.pid r
             ready := true
             readycCloseCount := s.readycCloseCount + 1 }

/-- `expectedErr` on the message of a non-nil error. -/
def expectedErrStr (es : String) : Bool :=
  goContains es "signal:" ||
    goContains es "/dev/ptmx: input/output error" ||
    goContains es "/dev/ptmx: file already closed"

/-- `expectedErr` from the source: nil errors, termination by signal, and the
closed-pseudo-terminal I/O errors are all "expected". -/
def expectedErr : Option String → Bool
  | none => true
  | some es => expectedErrStr es

/-- The epilogue after the consumer loop of `dequeue` breaks: reclassify the
terminal error via `expectedErr`, and if an error remains, send it on the
error channel. -/
def dequeueFinish (s : TopStreamState) : TopStreamState :=
  if expectedErr s.err then { s with err := none }
  else
    match s.err with
    | some e => { s with errc := s.errc ++ [e] }
    | none => s

/-- The consumer loop of `(str *TopStream).dequeue` run after the producer is
done (the "enqueue then dequeue" scoping of the claims): it pops the queued
rows front-first, one `consumeRow` each; once the queue is empty it either
breaks out (terminal error set) and runs the epilogue, or — with no error —
stays blocked in `rcond.Wait()`.  Returns the final state and the list of rows
consumed, in consumption order. -/
def dequeueRun (s : TopStreamState) : TopStreamState × List TopCommandRow :=
  if (s.queue.foldl consumeRow { s with queue := [] }).err = none then
    (s.queue.foldl consumeRow { s with queue := [] }, s.queue)
  else
    (dequeueFinish (s.queue.foldl consumeRow { s with queue := [] }), s.queue)

/-- The error-reclassification step of `(str *TopStream).close(kill)`, applied
to the error returned by `str.cmd.Wait()` (the path where `str.cmd != nil`):
a graceful wait squashes mere nonzero exit statuses, a forced stop squashes
the `expectedErr` classification, everything else is returned as-is. -/
def closeResult (kill : Bool) (waitErr : Option String) : Option String :=
  match waitErr with
  | none => none
  | some e =>
    if !kill && goContains e "exit status" then none
    else if kill && expectedErrStr e then none
    else some e

/-- `(str *TopStream).Wait()`: `close(false)`, the graceful variant. -/
def TopStreamWait (waitErr : Option String) : Option String :=
  closeResult false waitErr

/-- `(str *TopStream).Stop()`: `close(true)`, the forced variant. -/
def TopStreamStop (waitErr : Option String) : Option String :=
  closeResult true waitErr

/-- `(str *TopStream).Latest()`: under the read lock, copy every entry of the
snapshot map into a fresh map and return it; the Go `range` order over a map
is arbitrary, so the copy loop is modelled over an arbitrary enumeration
`order` of the entries.  The second component is the collector state after the
call — `Latest` only reads it. -/
def Latest (s : TopStreamState) (order : List (Int × TopCommandRow)) :
    List (Int × TopCommandRow) × TopStreamState :=
  (order.foldl (fun cm kv => mapInsert cm kv.1 kv.2) [], s)

/-- `StartStream` blocks on `<-str.readyc` after launching the goroutines.
Nothing is ever sent on `readyc`; the receive completes exactly when the
channel has been closed. -/
def startStreamReturns (s : TopStreamState) : Prop :=
  0 < s.readycCloseCount

instance (s : TopStreamState) : Decidable (startStreamReturns s) := by
  unfold startStreamReturns; infer_instance

/-- Classification of one read result by the producer loop: `none` when the
line is ignored (banner, blank, or wrong arity) or fails to parse, otherwise
the parsed row. -/
def lineOutcome (ps : RowParser) (i : ReadResult) : Option TopCommandRow :=
  if ps.skip (goTrim i.data) then none
  else if (goTrim i.data) = "" then none
  else if (goFields (goTrim i.data)).length ≠ ps.headers.length then none
  else (ps.parse (goFields (goTrim i.data))).toOption

/-- The successfully parsed rows of an input sequence, in input order. -/
def parsedRows (ps : RowParser) (inputs : List ReadResult) : List TopCommandRow :=
  inputs.filterMap (lineOutcome ps)

/-- A well-formed input line: the read carries no error, and the line is
either ignorable (banner, blank, wrong arity) or parses successfully. -/
def wellFormedInput (ps : RowParser) (i : ReadResult) : Prop :=
  i.err = none ∧
    (ps.skip (goTrim i.data) = true ∨ (goTrim i.data) = "" ∨
      (goFields (goTrim i.data)).length ≠ ps.headers.length ∨
      (ps.parse (goFields (goTrim i.data))).toOption.isSome = true)

instance (ps : RowParser) (i : ReadResult) : Decidable (wellFormedInput ps i) := by
  unfold wellFormedInput; infer_instance

/-- The last row carrying a given pid in a list of rows, `none` if the pid
never occurs: the reference value for last-write-wins. -/
def lastRowFor (k : Int) : List TopCommandRow → Option TopCommandRow
  | [] => none
  | r :: rest =>
    match lastRowFor k rest with
    | some v => some v
    | none => if r.pid = k then some r else none

/-- Modelled from the spec: a concrete instance of the Row Parser contract
(`TopRowHeaders`, `topRowToSkip`, `parseTopRow` live outside the provided
sources).  Three columns; the banner recogniser accepts the `top -` summary
banner and the header row; the parser reads the pid from the first field. -/
def specTopRowToSkip (s : String) : Bool :=
  charsStartWith "top -".data s.data || charsStartWith "PID".data s.data

/-- Modelled from the spec: `parseTopRow` — the process id is parsed from the
pid column, the remaining fields are kept as the row's metrics. -/
def specParseTopRow (row : List String) : Except String TopCommandRow :=
  match row with
  | [] => Except.error "empty row"
  | pidStr :: rest =>
    match goParseNat pidStr with
    | some n => Except.ok { pid := (n : Int), metrics := rest }
    | none => Except.error "invalid pid field"

/-- Modelled from the spec: a three-column header instance of the contract. -/
def specTopParser : RowParser :=
  { headers := ["PID", "CPU", "MEM"]
    skip := specTopRowToSkip
    parse := specParseTopRow }

/-! ## The socket fan-out query (`GetSS`, `getSSEntry`) -/

/-- The transport protocol selector (`TypeTCP` / `TypeTCP6`). -/
inductive TransportProtocol
  | tcp
  | tcp6
deriving DecidableEq, Repr

/-- The fields of `os/user.User` the query uses. -/
structure GoUser where
  uid : String
  username : String
deriving DecidableEq, Repr

/-- Modelled from the spec: the raw socket-table record (`NetTCP` lives
outside the provided sources); the fields are the ones `getSSEntry` reads —
owning user numeric id, parsed local/remote host and port, parsed state. -/
structure NetTCPEntry where
  typ : String
  uid : Int
  stParsedStatus : String
  localAddressParsedIPHost : String
  localAddressParsedIPPort : Int
  remAddressParsedIPHost : String
  remAddressParsedIPPort : Int
deriving DecidableEq, Repr

/-- `SSEntry` from the source: one socket/connection observation. -/
structure SSEntry where
  protocol : String
  program : String
  state : String
  pid : Int
  localIP : String
  localPort : Int
  remoteIP : String
  remotePort : Int
  user : GoUser
deriving DecidableEq, Repr

/-- The external collaborators `getSSEntry` calls: `GetNetTCP`, `GetProgram`
and `user.LookupId` (modelled from the spec's socket-table, PID-enumeration
and user-resolution contracts; their bodies live outside the provided
sources). -/
structure SSEnv where
  getNetTCP : Int → TransportProtocol → Except String (List NetTCPEntry)
  getProgram : Int → Except String String
  lookupUser : Int → Except String GoUser

/-- The fields of `EntryFilter` that `GetSS` and `getSSEntry` read on the
direct (explicit-pid) path; the program-name predicate mode is not modelled
here. -/
structure EntryFilter where
  pid : Int
  topLimit : Int
  localPort : Int
  remotePort : Int
  tcp : Bool
  tcp6 : Bool
deriving DecidableEq, Repr

/-- The per-connection loop of `getSSEntry`: look up the owning user (a
failure aborts the whole call), apply the exact local/remote port filters
(`continue` on mismatch), otherwise build the `SSEntry` and keep going. -/
def getSSEntryLoop (lookupUser : Int → Except String GoUser) (pid : Int)
    (pname : String) (lport rport : Int) :
    List NetTCPEntry → Except String (List SSEntry)
  | [] => Except.ok []
  | elem :: rest =>
    match lookupUser elem.uid with
    | Except.error e => Except.error e
    | Except.ok u =>
      if 0 < lport ∧ lport ≠ elem.localAddressParsedIPPort then
        getSSEntryLoop lookupUser pid pname lport rport rest
      else if 0 < rport ∧ rport ≠ elem.remAddressParsedIPPort then
        getSSEntryLoop lookupUser pid pname lport rport rest
      else
        match getSSEntryLoop lookupUser pid pname lport rport rest with
        | Except.error e => Except.error e
        | Except.ok tail =>
          Except.ok
            ({ protocol := elem.typ
               program := pname
               state := elem.stParsedStatus
               pid := pid
               localIP := elem.localAddressParsedIPHost
               localPort := elem.localAddressParsedIPPort
               remoteIP := elem.remAddressParsedIPHost
               remotePort := elem.remAddressParsedIPPort
               user := u } :: tail)

/-- `getSSEntry` from the source: fetch the socket table and the program
name, then run the per-connection loop. -/
def getSSEntry (env : SSEnv) (pid : Int) (tp : TransportProtocol)
    (lport rport : Int) : Except String (List SSEntry) :=
  match env.getNetTCP pid tp with
  | Except.error e => Except.error e
  | Except.ok nss =>
    match env.getProgram pid with
    | Except.error e => Except.error e
    | Except.ok pname => getSSEntryLoop env.lookupUser pid pname lport rport nss

/-- One worker's append step in `GetSS`: under the results lock, skip the
append when the soft cap has already been reached, otherwise append the
worker's entries. -/
def ssAppendUnit (topLimit : Int) (sss ents : List SSEntry) : List SSEntry :=
  if 0 < topLimit ∧ topLimit ≤ (sss.length : Int) then sss else sss ++ ents

/-- The shared accumulation of `GetSS` over the workers' outputs, in an
arbitrary completion order `units`. -/
def ssAccumulate (topLimit : Int) (units : List (List SSEntry)) : List SSEntry :=
  units.foldl (ssAppendUnit topLimit) []

/-- The final truncation step of `GetSS` after `wg.Wait()`:
`sss = sss[:ft.TopLimit:ft.TopLimit]` when the cap is positive and exceeded. -/
def ssTruncate (topLimit : Int) (sss : List SSEntry) : List SSEntry :=
  if 0 < topLimit ∧ topLimit < (sss.length : Int) then sss.take topLimit.toNat
  else sss

/-- The direct-mode run of `GetSS` for a known pid set: each unit of work is a
(pid, protocol-family) pair; `jobs` lists the spawned units in an arbitrary
completion order; an erroring unit is logged and contributes no entries; the
results are accumulated under the cap check and finally truncated. -/
def getSSDirectRun (env : SSEnv) (ft : EntryFilter)
    (jobs : List (Int × TransportProtocol)) : List SSEntry :=
  ssTruncate ft.topLimit (ssAccumulate ft.topLimit
    (jobs.map (fun j =>
      match getSSEntry env j.1 j.2 ft.localPort ft.remotePort with
      | Except.ok ents => ents
      | Except.error _ => [])))

/-- The total count `wg.Add` accumulates in the direct-mode branch of `GetSS`:
`wg.Add(len(pids))`, plus `wg.Add(len(pids))` again when both protocol
families are enabled. -/
def wgAddCount (ft : EntryFilter) (pids : List Int) : Nat :=
  pids.length + (if ft.tcp && ft.tcp6 then pids.length else 0)

/-- How many worker goroutines the direct-mode branch of `GetSS` spawns: one
per pid per enabled protocol family; each calls `wg.Done()` exactly once. -/
def spawnedWorkers (ft : EntryFilter) (pids : List Int) : Nat :=
  (if ft.tcp then pids.length else 0) + (if ft.tcp6 then pids.length else 0)

/-- `wg.Wait()` in `GetSS` completes exactly when the `wg.Done()` calls — one
per spawned worker — balance the count passed to `wg.Add`. -/
def getSSJoinCompletes (ft : EntryFilter) (pids : List Int) : Prop :=
  spawnedWorkers ft pids = wgAddCount ft pids

instance (ft : EntryFilter) (pids : List Int) :
    Decidable (getSSJoinCompletes ft pids) := by
  unfold getSSJoinCompletes; infer_instance

/-! ## Lemmas about the map model -/

/-- The last value bound to a key in an entry list, `none` if the key never
occurs. -/
def lastVal (k : Int) : List (Int × TopCommandRow) → Option TopCommandRow
  | [] => none
  | kv :: rest =>
    match lastVal k rest with
    | some v => some v
    | none => if kv.1 = k then some kv.2 else none

theorem mapLookup_filter_ne (m : List (Int × TopCommandRow)) (k j : Int)
    (h : k ≠ j) :
    mapLookup j (m.filter (fun p => p.1 ≠ k)) = mapLookup j m := by
  induction m with
  | nil => rfl
  | cons p t ih =>
    rw [List.filter_cons]
    by_cases hpk : p.1 = k
    · rw [if_neg (by simp [hpk])]
      have hpj : ¬p.1 = j := fun hpj => h (hpk.symm.trans hpj)
      conv_rhs => rw [mapLookup]
      rw [if_neg hpj]
      exact ih
    · rw [if_pos (by simp [hpk])]
      simp only [mapLookup]
      by_cases hpj : p.1 = j
      · rw [if_pos hpj, if_pos hpj]
      · rw [if_neg hpj, if_neg hpj]
        exact ih

theorem mapLookup_insert (m : List (Int × TopCommandRow)) (k j : Int)
    (v : TopCommandRow) :
    mapLookup j (mapInsert m k v) = if k = j then some v else mapLookup j m := by
  unfold mapInsert
  simp only [mapLookup]
  by_cases h : k = j
  · rw [if_pos h, if_pos h]
  · rw [if_neg h, if_neg h]
    exact mapLookup_filter_ne m k j h

theorem mapLookup_foldl_insertPair (l : List (Int × TopCommandRow))
    (m : List (Int × TopCommandRow)) (k : Int) :
    mapLookup k (l.foldl (fun cm kv => mapInsert cm kv.1 kv.2) m) =
      match lastVal k l with
      | some v => some v
      | none => mapLookup k m := by
  induction l generalizing m with
  | nil => rfl
  | cons kv rest ih =>
    rw [List.foldl_cons, ih]
    cases hrest : lastVal k rest with
    | some v => simp [lastVal, hrest]
    | none =>
      by_cases hp : kv.1 = k <;>
        simp [lastVal, hrest, mapLookup_insert, hp]

theorem lastVal_map_pid (rows : List TopCommandRow) (k : Int) :
    lastVal k (rows.map (fun r => (r.pid, r))) = lastRowFor k rows := by
  induction rows with
  | nil => rfl
  | cons r rest ih => simp [lastVal, lastRowFor, ih]

theorem mapLookup_foldl_insertRow (rows : List TopCommandRow)
    (m : List (Int × TopCommandRow)) (k : Int) :
    mapLookup k (rows.foldl (fun acc r => mapInsert acc r.pid r) m) =
      match lastRowFor k rows with
      | some v => some v
      | none => mapLookup k m := by
  have h := mapLookup_foldl_insertPair (rows.map (fun r => (r.pid, r))) m k
  rw [List.foldl_map] at h
  rw [h, lastVal_map_pid]

theorem lastVal_eq_none_of_not_mem (l : List (Int × TopCommandRow)) (k : Int)
    (h : k ∉ l.map Prod.fst) : lastVal k l = none := by
  induction l with
  | nil => rfl
  | cons kv t ih =>
    have h1 : kv.1 ≠ k := fun hh => h (by simp [hh])
    have h2 : k ∉ t.map Prod.fst := fun hh => h (by simp [hh])
    simp [lastVal, ih h2, h1]

theorem nodupKeys_of_cons (kv : Int × TopCommandRow)
    (t : List (Int × TopCommandRow)) (h : nodupKeys (kv :: t)) :
    kv.1 ∉ t.map Prod.fst ∧ nodupKeys t := by
  unfold nodupKeys at h ⊢
  rw [List.map_cons] at h
  exact List.nodup_cons.mp h

theorem lastVal_eq_mapLookup_of_nodup (l : List (Int × TopCommandRow)) (k : Int)
    (h : nodupKeys l) : lastVal k l = mapLookup k l := by
  induction l with
  | nil => rfl
  | cons kv t ih =>
    obtain ⟨hk, hnd⟩ := nodupKeys_of_cons kv t h
    by_cases hkv : kv.1 = k
    · have hnone : lastVal k t = none :=
        lastVal_eq_none_of_not_mem t k (hkv ▸ hk)
      simp [lastVal, mapLookup, hnone, hkv]
    · cases hl : lastVal k t <;>
        simp [lastVal, mapLookup, hkv, hl, ← ih hnd]

theorem mapLookup_perm (l l2 : List (Int × TopCommandRow)) (h : l.Perm l2)
    (hnd : nodupKeys l) (k : Int) : mapLookup k l = mapLookup k l2 := by
  induction h with
  | nil => rfl
  | cons x hp ih =>
    rename_i t1 t2
    have hnd2 : nodupKeys t1 := (nodupKeys_of_cons x t1 hnd).2
    simp only [mapLookup]
    rw [ih hnd2]
  | swap x y t =>
    have hyx : y.1 ≠ x.1 := by
      have := (nodupKeys_of_cons y (x :: t) hnd).1
      rw [List.map_cons] at this
      exact fun hh => this (by rw [hh]; exact List.mem_cons_self _ _)
    simp only [mapLookup]
    by_cases h1 : x.1 = k
    · by_cases h2 : y.1 = k
      · exact absurd (h2.trans h1.symm) hyx
      · rw [if_neg h2, if_pos h1, if_pos h1]
    · by_cases h2 : y.1 = k
      · rw [if_pos h2, if_pos h2, if_neg h1]
      · rw [if_neg h2, if_neg h1, if_neg h1, if_neg h2]
  | trans hp1 hp2 ih1 ih2 =>
    rename_i t1 t2 t3
    have hnd2 : nodupKeys t2 := by
      unfold nodupKeys at hnd ⊢
      exact ((hp1.map Prod.fst).nodup_iff).mp hnd
    rw [ih1 hnd, ih2 hnd2]

/-! ## Lemmas about the producer loop -/

theorem enqueueRun_exit (ps : RowParser) (s : TopStreamState)
    (l : List ReadResult) (h : s.err ≠ none) :
    enqueueRun ps s l = { s with signals := s.signals + 1 } := by
  cases l <;> simp [enqueueRun, h]

theorem enqueueStep_wf (ps : RowParser) (s : TopStreamState) (i : ReadResult)
    (hs : s.err = none) (h : wellFormedInput ps i) :
    (enqueueStep ps s i).queue = s.queue ++ (lineOutcome ps i).toList ∧
    (enqueueStep ps s i).err = none ∧
    (enqueueStep ps s i).pid2TopCommandRow = s.pid2TopCommandRow ∧
    (enqueueStep ps s i).ready = s.ready ∧
    (enqueueStep ps s i).readycCloseCount = s.readycCloseCount ∧
    (enqueueStep ps s i).errc = s.errc := by
  obtain ⟨hie, hcases⟩ := h
  by_cases h1 : ps.skip (goTrim i.data) = true
  · have hres : enqueueStep ps s i = s := by
      unfold enqueueStep; rw [if_pos h1]
    have hout : lineOutcome ps i = none := by
      unfold lineOutcome; rw [if_pos h1]
    rw [hres, hout]; simp [hs]
  · by_cases h2 : goTrim i.data = ""
    · have hres : enqueueStep ps s i = { s with err := i.err } := by
        unfold enqueueStep; rw [if_neg h1, if_pos h2]
      have hout : lineOutcome ps i = none := by
        unfold lineOutcome; rw [if_neg h1, if_pos h2]
      rw [hres, hout]; simp [hie]
    · by_cases h3 : (goFields (goTrim i.data)).length = ps.headers.length
      · cases hp : ps.parse (goFields (goTrim i.data)) with
        | error e =>
          exfalso
          rcases hcases with hc | hc | hc | hc
          · exact h1 hc
          · exact h2 hc
          · exact hc h3
          · rw [hp] at hc; simp [Except.toOption] at hc
        | ok r =>
          have hres : enqueueStep ps s i =
              { s with err := i.err
                       queue := s.queue ++ [r]
                       signals :=
                         if (s.queue ++ [r]).length = 1 then s.signals + 1
                         else s.signals } := by
            unfold enqueueStep
            rw [if_neg h1, if_neg h2, if_neg (fun hh => hh h3), hp]
          have hout : lineOutcome ps i = some r := by
            unfold lineOutcome
            rw [if_neg h1, if_neg h2, if_neg (fun hh => hh h3), hp]
            rfl
          rw [hres, hout]; simp [hie]
      · have hres : enqueueStep ps s i = { s with err := i.err } := by
          unfold enqueueStep; rw [if_neg h1, if_neg h2, if_pos h3]
        have hout : lineOutcome ps i = none := by
          unfold lineOutcome; rw [if_neg h1, if_neg h2, if_pos h3]
        rw [hres, hout]; simp [hie]

theorem enqueueRun_wf (ps : RowParser) (inputs : List ReadResult)
    (s : TopStreamState) (hs : s.err = none)
    (h : ∀ i ∈ inputs, wellFormedInput ps i) :
    (enqueueRun ps s inputs).queue = s.queue ++ parsedRows ps inputs ∧
    (enqueueRun ps s inputs).err = none ∧
    (enqueueRun ps s inputs).pid2TopCommandRow = s.pid2TopCommandRow ∧
    (enqueueRun ps s inputs).ready = s.ready ∧
    (enqueueRun ps s inputs).readycCloseCount = s.readycCloseCount ∧
    (enqueueRun ps s inputs).errc = s.errc := by
  induction inputs generalizing s with
  | nil => simp [enqueueRun, hs, parsedRows]
  | cons i rest ih =>
    have hwf : wellFormedInput ps i := h i (by simp)
    have hrest : ∀ j ∈ rest, wellFormedInput ps j :=
      fun j hj => h j (by simp [hj])
    obtain ⟨hq, he, hm, hrd, hcc, hec⟩ := enqueueStep_wf ps s i hs hwf
    obtain ⟨hq2, he2, hm2, hrd2, hcc2, hec2⟩ :=
      ih (enqueueStep ps s i) he hrest
    simp only [enqueueRun, if_pos hs]
    refine ⟨?_, he2, by rw [hm2, hm], by rw [hrd2, hrd], by rw [hcc2, hcc],
      by rw [hec2, hec]⟩
    rw [hq2, hq, List.append_assoc]
    unfold parsedRows
    cases ho : lineOutcome ps i <;> simp [List.filterMap_cons, ho]

/-! ## Lemmas about the consumer loop -/

theorem consumeRow_fields (s : TopStreamState) (r : TopCommandRow) :
    (consumeRow s r).pid2TopCommandRow = mapInsert s.pid2TopCommandRow r.pid r ∧
    (consumeRow s r).err = s.err ∧
    (consumeRow s r).queue = s.queue ∧
    (consumeRow s r).errc = s.errc := by
  unfold consumeRow; split <;> simp

theorem consumeAll_fields (rows : List TopCommandRow) (s : TopStreamState) :
    (rows.foldl consumeRow s).pid2TopCommandRow =
      rows.foldl (fun m r => mapInsert m r.pid r) s.pid2TopCommandRow ∧
    (rows.foldl consumeRow s).err = s.err ∧
    (rows.foldl consumeRow s).queue = s.queue ∧
    (rows.foldl consumeRow s).errc = s.errc := by
  induction rows generalizing s with
  | nil => simp
  | cons r rest ih =>
    obtain ⟨h1, h2, h3, h4⟩ := ih (consumeRow s r)
    obtain ⟨c1, c2, c3, c4⟩ := consumeRow_fields s r
    exact ⟨by rw [List.foldl_cons, h1, c1, List.foldl_cons],
      by rw [List.foldl_cons, h2, c2],
      by rw [List.foldl_cons, h3, c3],
      by rw [List.foldl_cons, h4, c4]⟩

theorem consumeAll_ready_true (rows : List TopCommandRow) (s : TopStreamState)
    (h : s.ready = true) :
    (rows.foldl consumeRow s).ready = true ∧
    (rows.foldl consumeRow s).readycCloseCount = s.readycCloseCount := by
  induction rows generalizing s with
  | nil => exact ⟨h, rfl⟩
  | cons r rest ih =>
    have hc : (consumeRow s r).ready = true ∧
        (consumeRow s r).readycCloseCount = s.readycCloseCount := by
      unfold consumeRow; rw [if_pos h]; exact ⟨h, rfl⟩
    obtain ⟨ih1, ih2⟩ := ih (consumeRow s r) hc.1
    exact ⟨by rw [List.foldl_cons]; exact ih1,
      by rw [List.foldl_cons, ih2, hc.2]⟩

theorem consumeAll_ready_false (rows : List TopCommandRow) (s : TopStreamState)
    (h : s.ready = false) (hne : rows ≠ []) :
    (rows.foldl consumeRow s).ready = true ∧
    (rows.foldl consumeRow s).readycCloseCount = s.readycCloseCount + 1 := by
  cases rows with
  | nil => exact absurd rfl hne
  | cons r rest =>
    have hc : (consumeRow s r).ready = true ∧
        (consumeRow s r).readycCloseCount = s.readycCloseCount + 1 := by
      unfold consumeRow; rw [if_neg (by simp [h])]; exact ⟨rfl, rfl⟩
    obtain ⟨t1, t2⟩ := consumeAll_ready_true rest (consumeRow s r) hc.1
    exact ⟨by rw [List.foldl_cons]; exact t1,
      by rw [List.foldl_cons, t2, hc.2]⟩

theorem dequeueFinish_fields (s : TopStreamState) :
    (dequeueFinish s).pid2TopCommandRow = s.pid2TopCommandRow ∧
    (dequeueFinish s).ready = s.ready ∧
    (dequeueFinish s).readycCloseCount = s.readycCloseCount ∧
    (dequeueFinish s).queue = s.queue := by
  unfold dequeueFinish
  split
  · simp
  · split <;> simp

/-! ## The claims about the streaming collector -/

/-- Claim C1: for every sequence of well-formed input lines processed by the
streaming collector (enqueue then dequeue), rows are consumed in the exact
FIFO order they were enqueued, and the final snapshot maps each process id
appearing in the input to exactly the last parsed row for that id in input
order (last-write-wins); ids never seen are absent (`lastRowFor` is `none`). -/
theorem topStream_fifo_last_write_wins (ps : RowParser) (inputs : List ReadResult)
    (h : ∀ i ∈ inputs, wellFormedInput ps i) :
    (dequeueRun (enqueueRun ps initTopStreamState inputs)).2
        = parsedRows ps inputs ∧
    ∀ pid : Int,
      mapLookup pid
          (dequeueRun (enqueueRun ps initTopStreamState inputs)).1.pid2TopCommandRow
        = lastRowFor pid (parsedRows ps inputs) := by
  obtain ⟨hq, he, hm, _, _, _⟩ :=
    enqueueRun_wf ps inputs initTopStreamState rfl h
  set s1 := enqueueRun ps initTopStreamState inputs with hs1
  have hq2 : s1.queue = parsedRows ps inputs := by
    rw [hq]; rfl
  obtain ⟨d1, d2, d3, d4⟩ := consumeAll_fields s1.queue { s1 with queue := [] }
  have herr : (s1.queue.foldl consumeRow { s1 with queue := [] }).err = none := by
    rw [d2]; exact he
  rw [dequeueRun, if_pos herr]
  refine ⟨hq2, fun pid => ?_⟩
  dsimp only
  rw [d1, mapLookup_foldl_insertRow, hq2]
  cases hl : lastRowFor pid (parsedRows ps inputs) <;>
    simp [hl, mapLookup, hm]

/-- Claim C2: the readiness gate (`close(readyc)`) fires exactly once — zero
times on an empty queue, once as the first row is consumed — and only
immediately after that first row has been stored into the snapshot; no later
consumed row fires it again, and once `ready` is raised it stays raised for
every further consumed row (the starting-to-streaming transition is
irreversible). -/
theorem readiness_gate_fires_once (s : TopStreamState)
    (h0 : s.ready = false) (h1 : s.readycCloseCount = 0) :
    ((dequeueRun s).1.readycCloseCount = if s.queue = [] then 0 else 1) ∧
    ((dequeueRun s).1.ready = true ↔ s.queue ≠ []) ∧
    (∀ t : TopStreamState, ∀ r : TopCommandRow, t.ready = false →
      (consumeRow t r).ready = true ∧
      (consumeRow t r).readycCloseCount = t.readycCloseCount + 1 ∧
      mapLookup r.pid (consumeRow t r).pid2TopCommandRow = some r) ∧
    (∀ t : TopStreamState, ∀ r : TopCommandRow, t.ready = true →
      (consumeRow t r).ready = true ∧
      (consumeRow t r).readycCloseCount = t.readycCloseCount) := by
  have hfire : ∀ t : TopStreamState, ∀ r : TopCommandRow, t.ready = false →
      (consumeRow t r).ready = true ∧
      (consumeRow t r).readycCloseCount = t.readycCloseCount + 1 ∧
      mapLookup r.pid (consumeRow t r).pid2TopCommandRow = some r := by
    intro t r ht
    unfold consumeRow
    rw [if_neg (by simp [ht])]
    refine ⟨rfl, rfl, ?_⟩
    simp [mapLookup_insert]
  have hnofire : ∀ t : TopStreamState, ∀ r : TopCommandRow, t.ready = true →
      (consumeRow t r).ready = true ∧
      (consumeRow t r).readycCloseCount = t.readycCloseCount := by
    intro t r ht
    unfold consumeRow
    rw [if_pos ht]
    exact ⟨ht, rfl⟩
  have hpre : (dequeueRun s).1.readycCloseCount
        = (s.queue.foldl consumeRow { s with queue := [] }).readycCloseCount ∧
      (dequeueRun s).1.ready
        = (s.queue.foldl consumeRow { s with queue := [] }).ready := by
    rw [dequeueRun]
    split
    · exact ⟨rfl, rfl⟩
    · exact ⟨(dequeueFinish_fields _).2.2.1, (dequeueFinish_fields _).2.1⟩
  by_cases hq : s.queue = []
  · have hfold : s.queue.foldl consumeRow { s with queue := [] }
        = { s with queue := [] } := by
      rw [hq]; rfl
    refine ⟨?_, ?_, hfire, hnofire⟩
    · rw [hpre.1, hfold, if_pos hq]
      simpa using h1
    · rw [hpre.2, hfold]
      simp [hq, h0]
  · obtain ⟨hr, hc⟩ := consumeAll_ready_false s.queue { s with queue := [] }
      (by simpa using h0) hq
    refine ⟨?_, ?_, hfire, hnofire⟩
    · rw [hpre.1, hc, if_neg hq]
      simpa using h1
    · rw [hpre.2, hr]
      simp [hq]

/-- Claim C3, counterexample: a read error returned together with data that
`topRowToSkip` recognises (a banner line) does NOT set the collector's
terminal error and does NOT end the producer loop — the `continue` in
`enqueue` fires before `str.err = lerr`, so the whole state (error field and
signal count included) is left exactly as it was, refuting "every read error
... regardless of what data accompanies it (including data recognized as a
banner/skippable line ...) sets the collector's terminal error and causes the
producer loop to end". -/
theorem read_error_on_skipped_line_is_dropped :
    enqueueRun specTopParser initTopStreamState
        [{ data := "top - banner", err := some "read /dev/ptmx: input/output error" }]
      = initTopStreamState := by decide

/-- Claim C3, amended: in the producer loop, a read error whose accompanying
trimmed data is NOT recognised as a banner/skippable line (blank data
included) leaves the iteration with a non-nil terminal error — the read error
itself, or the parse error that superseded it — and causes the producer loop
to end without touching the remaining inputs, after which the condition
variable is signaled once more; a read error accompanied by a skippable line
is dropped and the loop continues. -/
theorem read_error_sets_error_unless_skipped (ps : RowParser)
    (s : TopStreamState) (i : ReadResult) (rest : List ReadResult) (e : String)
    (hs : s.err = none) (hi : i.err = some e)
    (hskip : ps.skip (goTrim i.data) = false) :
    (enqueueStep ps s i).err ≠ none ∧
    enqueueRun ps s (i :: rest)
      = { enqueueStep ps s i with
          signals := (enqueueStep ps s i).signals + 1 } := by
  have h1 : ¬ ps.skip (goTrim i.data) = true := by simp [hskip]
  have hstep : (enqueueStep ps s i).err ≠ none := by
    unfold enqueueStep
    rw [if_neg h1]
    by_cases h2 : goTrim i.data = ""
    · rw [if_pos h2]; simp [hi]
    · rw [if_neg h2]
      by_cases h3 : (goFields (goTrim i.data)).length ≠ ps.headers.length
      · rw [if_pos h3]; simp [hi]
      · rw [if_neg h3]
        cases hp : ps.parse (goFields (goTrim i.data)) <;> simp [hi]
  refine ⟨hstep, ?_⟩
  show enqueueRun ps s (i :: rest) = _
  rw [enqueueRun, if_pos hs]
  exact enqueueRun_exit ps (enqueueStep ps s i) rest hstep

/-- Claim C4: the shutdown error reclassification — a graceful `Wait`
squashes exactly the errors whose message contains "exit status"; a forced
`Stop` squashes exactly the errors matching the expected classification
("signal:" or the closed-pseudo-terminal messages); every other error is
returned as-is; a nil wait error stays nil either way.  Concretely: `Stop`
after a kill-signal exit and `Wait` after a nonzero exit status both return
nil, while `Wait` does not squash a signal-death error. -/
theorem shutdown_error_reclassification (e : String) :
    TopStreamWait (some e)
        = (if goContains e "exit status" = true then none else some e) ∧
    TopStreamStop (some e)
        = (if expectedErrStr e = true then none else some e) ∧
    TopStreamWait none = none ∧
    TopStreamStop none = none ∧
    TopStreamStop (some "signal: killed") = none ∧
    TopStreamWait (some "exit status 1") = none ∧
    TopStreamWait (some "signal: killed") = some "signal: killed" := by
  refine ⟨?_, ?_, rfl, rfl, by decide, by decide, by decide⟩
  · unfold TopStreamWait closeResult
    cases hc : goContains e "exit status" <;> simp [hc]
  · unfold TopStreamStop closeResult
    cases hc : expectedErrStr e <;> simp [hc]

/-- Claim C6: a line that is blank (after trimming), recognised as a
banner/header line, or whose whitespace-split field count differs from the
header arity, when delivered by an error-free read, leaves the collector
state completely unchanged: nothing is enqueued, the snapshot, readiness and
terminal error are untouched. -/
theorem ignorable_line_leaves_state_unchanged (ps : RowParser)
    (s : TopStreamState) (i : ReadResult) (hs : s.err = none)
    (hi : i.err = none)
    (h : ps.skip (goTrim i.data) = true ∨ goTrim i.data = "" ∨
      (goFields (goTrim i.data)).length ≠ ps.headers.length) :
    enqueueStep ps s i = s := by
  by_cases h1 : ps.skip (goTrim i.data) = true
  · unfold enqueueStep; rw [if_pos h1]
  · have hupd : ({ s with err := i.err } : TopStreamState) = s := by
      rw [hi, ← hs]
    by_cases h2 : goTrim i.data = ""
    · unfold enqueueStep; rw [if_neg h1, if_pos h2]; exact hupd
    · have h3 : (goFields (goTrim i.data)).length ≠ ps.headers.length := by
        rcases h with hc | hc | hc
        · exact absurd hc h1
        · exact absurd hc h2
        · exact hc
      unfold enqueueStep; rw [if_neg h1, if_neg h2, if_pos h3]; exact hupd

/-- Claim C10: if the terminal error is set before any row was ever queued
(the consumer wakes to an empty queue), the consumer exits its loop without
ever closing the readiness channel: the gate never fires, so `StartStream` —
blocked receiving on that channel — never returns. -/
theorem error_before_first_row_blocks_start (s : TopStreamState) (e : String)
    (hq : s.queue = []) (he : s.err = some e)
    (h0 : s.ready = false) (h1 : s.readycCloseCount = 0) :
    (dequeueRun s).2 = [] ∧
    (dequeueRun s).1.ready = false ∧
    (dequeueRun s).1.readycCloseCount = 0 ∧
    ¬ startStreamReturns (dequeueRun s).1 := by
  have hfold : s.queue.foldl consumeRow { s with queue := [] }
      = { s with queue := [] } := by
    rw [hq]; rfl
  have herr : ¬ (s.queue.foldl consumeRow { s with queue := [] }).err = none := by
    rw [hfold]; simp [he]
  rw [dequeueRun, if_neg herr]
  dsimp only
  obtain ⟨f1, f2, f3, f4⟩ :=
    dequeueFinish_fields (s.queue.foldl consumeRow { s with queue := [] })
  have hready : (dequeueFinish
      (s.queue.foldl consumeRow { s with queue := [] })).ready = false := by
    rw [f2, hfold]; simpa using h0
  have hcnt : (dequeueFinish
      (s.queue.foldl consumeRow { s with queue := [] })).readycCloseCount = 0 := by
    rw [f3, hfold]; simpa using h1
  refine ⟨hq, hready, hcnt, fun hcon => ?_⟩
  unfold startStreamReturns at hcon
  rw [hcnt] at hcon
  exact absurd hcon (by norm_num)

/-- Claim C8: `Latest` returns a map built afresh (from the empty map) that
is extensionally equal to the snapshot at the time of the copy, whatever
iteration order the Go map `range` produces, and the collector state is
returned untouched; since the copy is a distinct value built from `[]`,
mutating it cannot change the internal snapshot. -/
theorem latest_copy_semantics (s : TopStreamState)
    (order : List (Int × TopCommandRow))
    (hnd : nodupKeys s.pid2TopCommandRow)
    (hperm : s.pid2TopCommandRow.Perm order) :
    (∀ k : Int, mapLookup k (Latest s order).1
        = mapLookup k s.pid2TopCommandRow) ∧
    (Latest s order).2 = s := by
  refine ⟨fun k => ?_, rfl⟩
  have hnd2 : nodupKeys order := by
    unfold nodupKeys at hnd ⊢
    exact ((hperm.map Prod.fst).nodup_iff).mp hnd
  have h1 := mapLookup_foldl_insertPair order [] k
  have h2 := lastVal_eq_mapLookup_of_nodup order k hnd2
  have h3 := mapLookup_perm s.pid2TopCommandRow order hperm hnd k
  show mapLookup k (order.foldl (fun cm kv => mapInsert cm kv.1 kv.2) []) = _
  rw [h1, h2, ← h3]
  cases hl : mapLookup k s.pid2TopCommandRow <;> simp [hl, mapLookup]

/-! ## The claims about the socket fan-out query -/

/-- Claim C5: whatever list the concurrent units accumulated — any
interleaving, any overshoot of the racy in-flight cap check — the final
truncation step of `GetSS` returns a slice of length at most the positive
result cap. -/
theorem getSS_top_limit_cap (topLimit : Int) (sss : List SSEntry)
    (h : 0 < topLimit) :
    ((ssTruncate topLimit sss).length : Int) ≤ topLimit := by
  unfold ssTruncate
  by_cases hc : topLimit < (sss.length : Int)
  · rw [if_pos ⟨h, hc⟩, List.length_take]
    omega
  · rw [if_neg (fun hh => hc hh.2)]
    omega

theorem getSSEntryLoop_ports (lookupUser : Int → Except String GoUser)
    (pid : Int) (pname : String) (lport rport : Int) (nss : List NetTCPEntry)
    (sss : List SSEntry)
    (h : getSSEntryLoop lookupUser pid pname lport rport nss = Except.ok sss) :
    ∀ en ∈ sss, (0 < lport → en.localPort = lport) ∧
      (0 < rport → en.remotePort = rport) := by
  induction nss generalizing sss with
  | nil =>
    rw [getSSEntryLoop] at h
    cases h
    simp
  | cons elem rest ih =>
    rw [getSSEntryLoop] at h
    cases hu : lookupUser elem.uid with
    | error e2 => rw [hu] at h; dsimp only at h; cases h
    | ok u =>
      rw [hu] at h
      dsimp only at h
      by_cases hl : 0 < lport ∧ lport ≠ elem.localAddressParsedIPPort
      · rw [if_pos hl] at h; exact ih sss h
      · rw [if_neg hl] at h
        by_cases hr : 0 < rport ∧ rport ≠ elem.remAddressParsedIPPort
        · rw [if_pos hr] at h; exact ih sss h
        · rw [if_neg hr] at h
          cases hrec : getSSEntryLoop lookupUser pid pname lport rport rest with
          | error e2 => rw [hrec] at h; cases h
          | ok tail =>
            rw [hrec] at h
            cases h
            intro en hen
            rcases List.mem_cons.mp hen with rfl | hen2
            · constructor
              · intro hlp
                have heq : lport = elem.localAddressParsedIPPort :=
                  not_not.mp (not_and.mp hl hlp)
                simpa using heq.symm
              · intro hrp
                have heq : rport = elem.remAddressParsedIPPort :=
                  not_not.mp (not_and.mp hr hrp)
                simpa using heq.symm
            · exact ih tail hrec en hen2

theorem getSSEntry_ports (env : SSEnv) (pid : Int) (tp : TransportProtocol)
    (lport rport : Int) (sss : List SSEntry)
    (h : getSSEntry env pid tp lport rport = Except.ok sss) :
    ∀ en ∈ sss, (0 < lport → en.localPort = lport) ∧
      (0 < rport → en.remotePort = rport) := by
  unfold getSSEntry at h
  cases h1 : env.getNetTCP pid tp with
  | error e => rw [h1] at h; cases h
  | ok nss =>
    rw [h1] at h
    cases h2 : env.getProgram pid with
    | error e => rw [h2] at h; cases h
    | ok pname =>
      rw [h2] at h
      exact getSSEntryLoop_ports env.lookupUser pid pname lport rport nss sss h

theorem foldl_append_unit_mem (topLimit : Int) (units : List (List SSEntry))
    (acc : List SSEntry) (P : SSEntry → Prop)
    (hacc : ∀ x ∈ acc, P x) (h : ∀ u ∈ units, ∀ x ∈ u, P x) :
    ∀ x ∈ units.foldl (ssAppendUnit topLimit) acc, P x := by
  induction units generalizing acc with
  | nil => simpa using hacc
  | cons u rest ih =>
    rw [List.foldl_cons]
    refine ih (ssAppendUnit topLimit acc u) ?_
      (fun j hj => h j (List.mem_cons_of_mem _ hj))
    intro x hx
    unfold ssAppendUnit at hx
    split at hx
    · exact hacc x hx
    · rcases List.mem_append.mp hx with hx2 | hx2
      · exact hacc x hx2
      · exact h u (List.mem_cons_self _ _) x hx2

theorem ssTruncate_subset (topLimit : Int) (sss : List SSEntry) :
    ∀ x ∈ ssTruncate topLimit sss, x ∈ sss := by
  intro x hx
  unfold ssTruncate at hx
  split at hx
  · exact List.take_subset _ _ hx
  · exact hx

/-- Claim C7: for every filter with a positive local-port (respectively
remote-port) value, every entry returned by the direct-mode `GetSS` run has
its local (respectively remote) port exactly equal to the filter value:
mismatching connections are excluded inside `getSSEntry` before
accumulation, and accumulation plus final truncation add nothing else. -/
theorem getSS_port_filter_exact (env : SSEnv) (ft : EntryFilter)
    (jobs : List (Int × TransportProtocol)) :
    ∀ en ∈ getSSDirectRun env ft jobs,
      (0 < ft.localPort → en.localPort = ft.localPort) ∧
      (0 < ft.remotePort → en.remotePort = ft.remotePort) := by
  intro en hen
  have hsub := ssTruncate_subset ft.topLimit _ en hen
  refine foldl_append_unit_mem ft.topLimit _ []
    (fun x => (0 < ft.localPort → x.localPort = ft.localPort) ∧
      (0 < ft.remotePort → x.remotePort = ft.remotePort))
    (by simp) ?_ en hsub
  intro u hu x hx
  rcases List.mem_map.mp hu with ⟨j, hj, rfl⟩
  cases hget : getSSEntry env j.1 j.2 ft.localPort ft.remotePort with
  | error e =>
    rw [hget] at hx
    simp at hx
  | ok ents =>
    rw [hget] at hx
    exact getSSEntry_ports env j.1 j.2 ft.localPort ft.remotePort ents hget x hx

/-- Claim C9: in direct mode with a non-empty candidate pid set and both
protocol family toggles disabled, `GetSS` adds `len(pids)` to the wait group
but spawns zero workers, so the `wg.Wait` join barrier can never complete and
`GetSS` never returns; more generally the join completing with candidates
present requires at least one protocol family to be enabled. -/
theorem getSS_no_family_join_never_completes (ft : EntryFilter)
    (pids : List Int) (hne : pids ≠ [])
    (h4 : ft.tcp = false) (h6 : ft.tcp6 = false) :
    spawnedWorkers ft pids = 0 ∧
    wgAddCount ft pids = pids.length ∧
    ¬ getSSJoinCompletes ft pids ∧
    (∀ ft2 : EntryFilter, ∀ pids2 : List Int, pids2 ≠ [] →
      getSSJoinCompletes ft2 pids2 → ft2.tcp = true ∨ ft2.tcp6 = true) := by
  have hlen : pids.length ≠ 0 := by
    simpa using fun hh => hne (List.length_eq_zero.mp hh)
  refine ⟨?_, ?_, ?_, ?_⟩
  · simp [spawnedWorkers, h4, h6]
  · simp [wgAddCount, h4]
  · unfold getSSJoinCompletes spawnedWorkers wgAddCount
    simp [h4, h6]
    omega
  · intro ft2 pids2 hne2 hjc
    have hlen2 : pids2.length ≠ 0 := by
      simpa using fun hh => hne2 (List.length_eq_zero.mp hh)
    by_contra hcon
    push_neg at hcon
    obtain ⟨hc1, hc2⟩ := hcon
    unfold getSSJoinCompletes spawnedWorkers wgAddCount at hjc
    simp [Bool.not_eq_true] at hc1 hc2
    rw [hc1, hc2] at hjc
    simp at hjc
    exact hlen2 hjc.symm

/-! ## Concrete witnesses -/

/-- The spec's three-line scenario: two pids, pid 1 updated twice. -/
def scenarioInputs : List ReadResult :=
  [{ data := "1 2.0 1.0", err := none },
   { data := "2 5.0 3.0", err := none },
   { data := "1 9.0 4.0", err := none }]

theorem topStream_fifo_last_write_wins_witness :
    (∀ i ∈ scenarioInputs, wellFormedInput specTopParser i) ∧
    mapLookup 1 (dequeueRun (enqueueRun specTopParser initTopStreamState
        scenarioInputs)).1.pid2TopCommandRow
      = lastRowFor 1 (parsedRows specTopParser scenarioInputs) ∧
    lastRowFor 1 (parsedRows specTopParser scenarioInputs)
      = some { pid := 1, metrics := ["9.0", "4.0"] } :=
  ⟨by decide,
   (topStream_fifo_last_write_wins specTopParser scenarioInputs (by decide)).2 1,
   by decide⟩

def rowOne : TopCommandRow := { pid := 1, metrics := ["2.0", "1.0"] }

def rowTwo : TopCommandRow := { pid := 2, metrics := ["5.0", "3.0"] }

/-- A collector state with two queued rows and the gate still down. -/
def queuedState : TopStreamState :=
  { initTopStreamState with queue := [rowOne, rowTwo] }

theorem readiness_gate_fires_once_witness :
    queuedState.ready = false ∧ queuedState.readycCloseCount = 0 ∧
    ((dequeueRun queuedState).1.readycCloseCount
      = if queuedState.queue = [] then 0 else 1) :=
  ⟨rfl, rfl, (readiness_gate_fires_once queuedState rfl rfl).1⟩

/-- A blank read that also carries a read error. -/
def blankErrorRead : ReadResult := { data := "", err := some "read failure" }

theorem read_error_sets_error_unless_skipped_witness :
    initTopStreamState.err = none ∧
    blankErrorRead.err = some "read failure" ∧
    specTopParser.skip (goTrim blankErrorRead.data) = false ∧
    (enqueueStep specTopParser initTopStreamState blankErrorRead).err ≠ none :=
  ⟨rfl, rfl, by decide,
   (read_error_sets_error_unless_skipped specTopParser initTopStreamState
      blankErrorRead [] "read failure" rfl rfl (by decide)).1⟩

def sampleUser : GoUser := { uid := "0", username := "root" }

def sampleConn : NetTCPEntry :=
  { typ := "tcp"
    uid := 0
    stParsedStatus := "ESTABLISHED"
    localAddressParsedIPHost := "127.0.0.1"
    localAddressParsedIPPort := 80
    remAddressParsedIPHost := "10.0.0.2"
    remAddressParsedIPPort := 443 }

def sampleSSEnv : SSEnv :=
  { getNetTCP := fun _ _ => Except.ok [sampleConn]
    getProgram := fun _ => Except.ok "nginx"
    lookupUser := fun _ => Except.ok sampleUser }

def sampleQueryEntry : SSEntry :=
  { protocol := "tcp"
    program := "nginx"
    state := "ESTABLISHED"
    pid := 5
    localIP := "127.0.0.1"
    localPort := 80
    remoteIP := "10.0.0.2"
    remotePort := 443
    user := sampleUser }

theorem getSS_top_limit_cap_witness :
    (0 : Int) < 1 ∧
    ((ssTruncate 1 [sampleQueryEntry, sampleQueryEntry]).length : Int) ≤ 1 :=
  ⟨by norm_num,
   getSS_top_limit_cap 1 [sampleQueryEntry, sampleQueryEntry] (by norm_num)⟩

/-- A line with one fewer field than the three-column header. -/
def shortLineRead : ReadResult := { data := "1 2.0", err := none }

theorem ignorable_line_leaves_state_unchanged_witness :
    initTopStreamState.err = none ∧ shortLineRead.err = none ∧
    (specTopParser.skip (goTrim shortLineRead.data) = true ∨
      goTrim shortLineRead.data = "" ∨
      (goFields (goTrim shortLineRead.data)).length
        ≠ specTopParser.headers.length) ∧
    enqueueStep specTopParser initTopStreamState shortLineRead
      = initTopStreamState :=
  ⟨rfl, rfl, by decide,
   ignorable_line_leaves_state_unchanged specTopParser initTopStreamState
     shortLineRead rfl rfl (by decide)⟩

def samplePortFilter : EntryFilter :=
  { pid := 5, topLimit := 0, localPort := 80, remotePort := 0,
    tcp := true, tcp6 := false }

theorem getSS_port_filter_exact_witness :
    sampleQueryEntry ∈ getSSDirectRun sampleSSEnv samplePortFilter
        [(5, TransportProtocol.tcp)] ∧
    (0 : Int) < samplePortFilter.localPort ∧
    sampleQueryEntry.localPort = samplePortFilter.localPort :=
  ⟨by decide, by decide,
   (getSS_port_filter_exact sampleSSEnv samplePortFilter
      [(5, TransportProtocol.tcp)] sampleQueryEntry (by decide)).1 (by decide)⟩

/-- A collector state whose snapshot holds two rows. -/
def snapState : TopStreamState :=
  { initTopStreamState with pid2TopCommandRow := [(1, rowOne), (2, rowTwo)] }

theorem latest_copy_semantics_witness :
    nodupKeys snapState.pid2TopCommandRow ∧
    snapState.pid2TopCommandRow.Perm [(2, rowTwo), (1, rowOne)] ∧
    mapLookup 1 (Latest snapState [(2, rowTwo), (1, rowOne)]).1
      = mapLookup 1 snapState.pid2TopCommandRow :=
  ⟨by decide, by decide,
   (latest_copy_semantics snapState [(2, rowTwo), (1, rowOne)]
      (by decide) (by decide)).1 1⟩

def noFamilyFilter : EntryFilter :=
  { pid := 7, topLimit := 0, localPort := 0, remotePort := 0,
    tcp := false, tcp6 := false }

theorem getSS_no_family_join_never_completes_witness :
    ([7] : List Int) ≠ [] ∧ noFamilyFilter.tcp = false ∧
    noFamilyFilter.tcp6 = false ∧
    ¬ getSSJoinCompletes noFamilyFilter [7] :=
  ⟨by decide, rfl, rfl,
   (getSS_no_family_join_never_completes noFamilyFilter [7]
      (by decide) rfl rfl).2.2.1⟩

/-- A collector whose first read already failed: error set, nothing queued. -/
def failedState : TopStreamState :=
  { initTopStreamState with err := some "parse top row error" }

theorem error_before_first_row_blocks_start_witness :
    failedState.queue = [] ∧ failedState.err = some "parse top row error" ∧
    failedState.ready = false ∧ failedState.readycCloseCount = 0 ∧
    ¬ startStreamReturns (dequeueRun failedState).1 :=
  ⟨rfl, rfl, rfl, rfl,
   (error_before_first_row_blocks_start failedState "parse top row error"
      rfl rfl rfl rfl).2.2.2⟩

end Psn
